import Mathlib

/-!
# tcp: copying one regular file to another

A shallow embedding of `src/tcp.c`.  Paths are lists of characters (C strings
without their terminating NUL), file contents are lists of bytes, and the
operating system is an explicit state: the answers it gives to the system calls
of the program, the contents of the files, and the trace of the system calls
issued so far.
-/

namespace Tcp

/-! ## Data model -/

/-- A C string holding a path name, without the terminating NUL. -/
abbrev Path := List Char

/-- The content of a file, byte by byte. -/
abbrev Bytes := List Nat

def EXIT_SUCCESS : Nat := 0

def EXIT_FAILURE : Nat := 1

/-- The errno value of "No such file or directory". -/
def ENOENT : Nat := 2

/-- The errno value of "File name too long". -/
def ENAMETOOLONG : Nat := 36

/-- The largest value of the C type int. -/
def INT_MAX : Nat := 2147483647

/-- The number of the signal sent for an invalid memory reference. -/
def SIGSEGV : Nat := 11

/-- The file type bits of st_mode (sys/stat.h). -/
def S_IFMT : Nat := 0o170000

def S_IFDIR : Nat := 0o040000

def S_IFREG : Nat := 0o100000

/-- The macro S_ISDIR of sys/stat.h. -/
def S_ISDIR (m : Nat) : Bool := (m &&& S_IFMT) == S_IFDIR

/-- The macro S_ISREG of sys/stat.h. -/
def S_ISREG (m : Nat) : Bool := (m &&& S_IFMT) == S_IFREG

/-- The fields of struct stat the program reads. -/
structure Stat where
  st_mode : Nat
  st_ino : Nat
  st_size : Nat
  st_blksize : Nat
deriving DecidableEq, Repr

/-- The result of stat(2): -1 with errno set, or 0 with the buffer filled in. -/
inductive StatResult where
  | error (errno : Nat)
  | ok (sb : Stat)
deriving DecidableEq, Repr

/-- The two descriptors main opens. -/
inductive Fd where
  | source_fd
  | target_fd
deriving DecidableEq, Repr

/-- The system calls the program issues, with the arguments that matter. -/
inductive Syscall where
  | stat (path : Path)
  | open_rdonly (path : Path)
  | open_creat_trunc (path : Path) (mode : Nat)
  | read (fd : Fd) (count : Nat)
  | write (fd : Fd) (bytes : Bytes)
  | ftruncate (fd : Fd) (length : Nat)
  | mmap (fd : Fd) (length : Nat) (offset : Nat)
  | munmap (fd : Fd) (length : Nat)
  | close (fd : Fd)
deriving DecidableEq, Repr

/-- The decisions the environment takes for the system calls of the copy
engine.  A read or write is identified by the file offset it is issued at, a
mapping by the offset it maps. -/
structure Env where
  /-- For read(2) at a source offset: none is a failure (-1), some k says that at most
  k bytes are transferred by this call (on Linux never more than 0x7ffff000). -/
  read_limit : Nat → Option Nat
  /-- For write(2) at a target offset: none is a failure (-1), some k says that at most
  k bytes are accepted by this call. -/
  write_limit : Nat → Option Nat
  /-- Whether ftruncate(2) succeeds. -/
  ftruncate_ok : Bool
  /-- Whether mmap(2) of a descriptor at an offset succeeds. -/
  mmap_ok : Fd → Nat → Bool
  /-- Whether munmap(2) of the mapping made at an offset succeeds. -/
  munmap_ok : Fd → Nat → Bool
  /-- Whether close(2) of a descriptor succeeds. -/
  close_ok : Fd → Bool
  /-- The value of sysconf(_SC_PAGE_SIZE), as a size_t. -/
  page_size : Nat
  /-- The number of bytes the stack can still grow by when copy_file_buffer is
  entered (the stack limit less what is in use). -/
  stack_limit : Nat

/-- The state of the system as main sees it. -/
structure World where
  /-- The answer of stat(2) for each path. -/
  status : Path → StatResult
  /-- Whether open(2) of a path succeeds. -/
  open_ok : Path → Bool
  /-- The content of the file a path names. -/
  data : Path → Bytes
  /-- The decisions of the environment during the copy. -/
  env : Env
  /-- The system calls issued so far, oldest first. -/
  log : List Syscall

/-- The state of the two open files during the copy.  The descriptors refer to
two different files (main refuses equal inode numbers), the target descriptor
is the only writer of its file and was opened with O_TRUNC, so that its file
offset is the end of the file. -/
structure Files where
  /-- The content of the file behind source_fd. -/
  source : Bytes
  /-- The file offset of source_fd. -/
  source_off : Nat
  /-- The content of the file behind target_fd. -/
  target : Bytes
  /-- The system calls issued so far, oldest first. -/
  log : List Syscall
deriving DecidableEq, Repr

/-- How a C function ends: it returns a value, or the process is terminated by
err(3), errx(3) or exit(3) with a status and a diagnostic (the message text
given in the source, without the program name and the errno text), or the
process is killed by a signal. -/
inductive Outcome (α σ : Type) where
  | returned (val : α) (st : σ)
  | exited (status : Nat) (diag : String) (st : σ)
  | killed (signal : Nat) (st : σ)
deriving DecidableEq, Repr

/-! ## C library -/

def strlen (s : Path) : Nat := s.length

/-- The offset of the last occurrence of c in s; none stands for NULL. -/
def strrchr : Path → Char → Option Nat
  | [], _ => none
  | x :: xs, c =>
    match strrchr xs c with
    | some i => some (i + 1)
    | none => if x = c then some 0 else none

/-- The function basename(3) of libgen.h (POSIX): the empty string gives ".",
trailing slashes are removed, a string of slashes gives "/", otherwise the
part after the last slash. -/
def basename (path : Path) : Path :=
  if path = [] then ['.']
  else
    let stripped := (path.reverse.dropWhile (fun c => c == '/')).reverse
    if stripped = [] then ['/']
    else (stripped.reverse.takeWhile (fun c => c != '/')).reverse

/-- The conversion of a size_t to int (the value modulo 2^32, read as a signed
number). -/
def int_of_size_t (x : Nat) : Int :=
  if x % 2 ^ 32 < 2 ^ 31 then ((x % 2 ^ 32 : Nat) : Int) else ((x % 2 ^ 32 : Nat) : Int) - 2 ^ 32

/-- The conversion of a ssize_t to int (the value modulo 2^32, read as a signed
number). -/
def int_of_ssize_t (x : Int) : Int := (x + 2 ^ 31) % 2 ^ 32 - 2 ^ 31

/-- The function snprintf(3) applied to a format whose complete output is out: at
most size - 1 characters are stored, and the return value is the length of the
complete output (-1 when that length does not fit in an int). -/
def snprintf (size : Nat) (out : Path) : Path × Int :=
  (out.take (size - 1), if out.length ≤ INT_MAX then (out.length : Int) else -1)

/-! ## System calls -/

/-- The call stat(2): a path of PATH_MAX characters or more is refused with
ENAMETOOLONG, otherwise the environment answers; the call is logged. -/
def stat (PATH_MAX : Nat) (w : World) (path : Path) : StatResult × World :=
  (if PATH_MAX ≤ path.length then StatResult.error ENAMETOOLONG else w.status path,
   { w with log := w.log ++ [Syscall.stat path] })

/-- The call open(2) with O_RDONLY: the environment decides whether it
succeeds; the call is logged. -/
def open_rdonly (w : World) (path : Path) : Bool × World :=
  (w.open_ok path, { w with log := w.log ++ [Syscall.open_rdonly path] })

/-- The call open(2) with O_RDWR | O_CREAT | O_TRUNC: the environment decides
whether it succeeds, and on success the file the path names is empty
afterwards; the call is logged. -/
def open_creat_trunc (w : World) (path : Path) (mode : Nat) : Bool × World :=
  let w1 := { w with log := w.log ++ [Syscall.open_creat_trunc path mode] }
  if w.open_ok path then
    (true, { w1 with data := fun p => if p = path then [] else w.data p })
  else (false, w1)

/-- The call alloca(size): the stack frame grows by size bytes.  The result
says whether the stack has room for them; when it has not, the next access to
the stack is an invalid memory reference. -/
def alloca (env : Env) (size : Nat) : Bool := decide (size ≤ env.stack_limit)

/-- The call read(source_fd, buffer, count): on success the next unread bytes of
the source, at most count of them and at most as many as the environment
allows for this call, are stored in the buffer and the file offset advances
past them.  The result is the return value (a ssize_t), the bytes stored, and
the new state. -/
def read (env : Env) (s : Files) (count : Nat) : Int × Bytes × Files :=
  let s1 := { s with log := s.log ++ [Syscall.read Fd.source_fd count] }
  match env.read_limit s.source_off with
  | none => (-1, [], s1)
  | some k =>
    let buffer := (s.source.drop s.source_off).take (min k count)
    (buffer.length, buffer, { s1 with source_off := s.source_off + buffer.length })

/-- The call write(target_fd, bytes, bytes.length): on success a prefix of the
bytes, as long as the environment allows, is appended to the target. -/
def write (env : Env) (s : Files) (bytes : Bytes) : Int × Files :=
  let s1 := { s with log := s.log ++ [Syscall.write Fd.target_fd bytes] }
  match env.write_limit s.target.length with
  | none => (-1, s1)
  | some k =>
    let accepted := bytes.take k
    (accepted.length, { s1 with target := s.target ++ accepted })

/-- The call ftruncate(target_fd, length): on success the target is cut or
extended with zero bytes to the given length. -/
def ftruncate (env : Env) (s : Files) (length : Nat) : Int × Files :=
  let s1 := { s with log := s.log ++ [Syscall.ftruncate Fd.target_fd length] }
  if env.ftruncate_ok then
    (0, { s1 with
          target := (s.target ++ List.replicate (length - s.target.length) 0).take length })
  else (-1, s1)

/-- The content of the file behind a descriptor. -/
def Files.content (s : Files) : Fd → Bytes
  | Fd.source_fd => s.source
  | Fd.target_fd => s.target

/-- The call mmap(NULL, length, prot, MAP_SHARED, fd, offset): it fails (none stands
for MAP_FAILED) for a length of 0, for an offset that is not a multiple of the
page size, and when the environment says so; otherwise the result is the
mapped memory, the bytes of the file from the offset on, zero past its end. -/
def mmap (env : Env) (s : Files) (fd : Fd) (length offset : Nat) : Option Bytes × Files :=
  let s1 := { s with log := s.log ++ [Syscall.mmap fd length offset] }
  if length = 0 ∨ offset % env.page_size ≠ 0 ∨ env.mmap_ok fd offset = false then (none, s1)
  else (some ((List.range length).map (fun i => (s.content fd).getD (offset + i) 0)), s1)

/-- The call memcpy into the shared writable mapping of the target made at an
offset: the bytes replace the content of the target from the offset on, as far
as the file reaches. -/
def memcpy (s : Files) (offset : Nat) (bytes : Bytes) : Files :=
  { s with
    target := (s.target.take offset ++ bytes ++ s.target.drop (offset + bytes.length)).take
      s.target.length }

/-- The call munmap(2) of the mapping made of a descriptor at an offset. -/
def munmap (env : Env) (s : Files) (fd : Fd) (length offset : Nat) : Int × Files :=
  (if env.munmap_ok fd offset then 0 else -1,
   { s with log := s.log ++ [Syscall.munmap fd length] })

/-- The call close(2). -/
def close (w : World) (fd : Fd) : Int × World :=
  (if w.env.close_ok fd then 0 else -1, { w with log := w.log ++ [Syscall.close fd] })

/-! ## Path resolver -/

/-- The function determine_target of tcp.c.  The limit PATH_MAX of limits.h is
a parameter.  The buffer allocation is taken to succeed. -/
def determine_target (PATH_MAX : Nat) (w : World) (source target : Path) :
    Option Path × World :=
  let target_length := strlen target
  if target_length = 0 then (none, w)
  else
    match stat PATH_MAX w target with
    | (StatResult.error errno, w1) =>
      if errno = ENOENT then (some target, w1) else (none, w1)
    | (StatResult.ok sb, w1) =>
      if S_ISDIR sb.st_mode then
        let source_name := basename source
        let source_name_length := strlen source_name
        let r :=
          if strrchr target '/' = some (target_length - 1) then
            (snprintf (PATH_MAX + 1) (target ++ source_name),
             int_of_size_t (target_length + source_name_length))
          else
            (snprintf (PATH_MAX + 1) (target ++ '/' :: source_name),
             int_of_size_t (target_length + 1 + source_name_length))
        let target_path := r.1.1
        let n := r.1.2
        let n_expect := r.2
        if n = n_expect then (some target_path, w1) else (none, w1)
      else if S_ISREG sb.st_mode then (some target, w1)
      else (none, w1)

/-! ## Copy engine -/

/-- The loop of copy_file_buffer; the value read returns is stored in the
int n.  The first argument bounds the number of iterations of the loop; none
means that the bound was reached. -/
def copy_file_buffer_loop (env : Env) (buffer_size : Nat) :
    Nat → Files → Option (Outcome Unit Files)
  | 0, _ => none
  | fuel + 1, s =>
    match read env s buffer_size with
    | (r, buffer, s1) =>
      let n := int_of_ssize_t r
      if n > 0 then
        match write env s1 (buffer.take n.toNat) with
        | (m, s2) =>
          if m ≠ n then some (Outcome.exited EXIT_FAILURE "write error" s2)
          else copy_file_buffer_loop env buffer_size fuel s2
      else some (Outcome.returned () s1)

/-- The function copy_file_buffer of tcp.c: the buffer of buffer_size bytes is
taken from the stack with alloca, then the loop runs.  When the stack has no
room for the buffer, the call of read that follows touches the stack outside
its limit and the process is killed by SIGSEGV before any system call. -/
def copy_file_buffer (env : Env) (buffer_size : Nat) (fuel : Nat) (s : Files) :
    Option (Outcome Unit Files) :=
  if alloca env buffer_size then copy_file_buffer_loop env buffer_size fuel s
  else some (Outcome.killed SIGSEGV s)

/-- The loop of copy_file_mmap; it returns the final value of written.  The
first argument bounds the number of iterations; none means that the bound was
reached. -/
def copy_file_mmap_loop (env : Env) (st_size chunk_size : Nat) :
    Nat → Nat → Files → Option (Outcome Nat Files)
  | 0, _, _ => none
  | fuel + 1, written, s =>
    if written < st_size then
      let remaining := st_size - written
      let to_write := if chunk_size < remaining then chunk_size else remaining
      match mmap env s Fd.source_fd to_write written with
      | (none, s1) => some (Outcome.exited EXIT_FAILURE "source mmap error" s1)
      | (some source, s1) =>
        match mmap env s1 Fd.target_fd to_write written with
        | (none, s2) => some (Outcome.exited EXIT_FAILURE "target mmap error" s2)
        | (some _, s2) =>
          let s3 := memcpy s2 written (source.take to_write)
          match munmap env s3 Fd.source_fd to_write written with
          | (r4, s4) =>
            if r4 = -1 then some (Outcome.exited EXIT_FAILURE "source munmap error" s4)
            else
              match munmap env s4 Fd.target_fd to_write written with
              | (r5, s5) =>
                if r5 = -1 then some (Outcome.exited EXIT_FAILURE "target munmap error" s5)
                else copy_file_mmap_loop env st_size chunk_size fuel (written + to_write) s5
    else some (Outcome.returned written s)

/-- The function copy_file_mmap of tcp.c; st_size is the size field of the
stat buffer of the source.  The value returned is the final value of
written. -/
def copy_file_mmap (env : Env) (st_size : Nat) (fuel : Nat) (s : Files) :
    Option (Outcome Nat Files) :=
  match ftruncate env s st_size with
  | (r, s1) =>
    if r = -1 then some (Outcome.exited EXIT_FAILURE "target resize error" s1)
    else copy_file_mmap_loop env st_size env.page_size fuel 0 s1

/-! ## Driver -/

/-- The function usage of tcp.c; the diagnostic is the format it prints. -/
def usage (w : World) : Outcome Nat World :=
  Outcome.exited EXIT_FAILURE "usage: %s source target" w

/-- The state of the world once the copy engine has stopped: the target path
names the content the engine left behind. -/
def World.sync (w : World) (target_path : Path) (s : Files) : World :=
  { w with data := fun p => if p = target_path then s.target else w.data p, log := s.log }

/-- The function main of tcp.c.  MMAP_FILES is the compile-time switch between
the two copy strategies, PATH_MAX the limit of limits.h, fuel bounds the
iterations of the copy loop, argv holds the program name and the arguments.
A returned value is the exit status of the process. -/
def main (MMAP_FILES PATH_MAX fuel : Nat) (w : World) (argv : List Path) :
    Option (Outcome Nat World) :=
  if argv.length ≠ 3 then some (usage w)
  else
    let source_path := argv.getD 1 []
    match stat PATH_MAX w source_path with
    | (StatResult.error _, w1) =>
      some (Outcome.exited EXIT_FAILURE "source is not a regular file" w1)
    | (StatResult.ok source_sb, w1) =>
      if !S_ISREG source_sb.st_mode then
        some (Outcome.exited EXIT_FAILURE "source is not a regular file" w1)
      else
        match determine_target PATH_MAX w1 source_path (argv.getD 2 []) with
        | (none, w2) => some (Outcome.exited EXIT_FAILURE "target path is invalid" w2)
        | (some target_path, w2) =>
          match stat PATH_MAX w2 target_path with
          | (target_res, w3) =>
            let same :=
              match target_res with
              | StatResult.error _ => false
              | StatResult.ok target_sb => source_sb.st_ino == target_sb.st_ino
            if same then
              some (Outcome.exited EXIT_FAILURE "source and target are the same file" w3)
            else
              match open_rdonly w3 source_path with
              | (false, w4) => some (Outcome.exited EXIT_FAILURE "source open error" w4)
              | (true, w4) =>
                match open_creat_trunc w4 target_path source_sb.st_mode with
                | (false, w5) => some (Outcome.exited EXIT_FAILURE "target open error" w5)
                | (true, w5) =>
                  let files : Files :=
                    { source := w5.data source_path, source_off := 0,
                      target := w5.data target_path, log := w5.log }
                  let copied : Option (Outcome Unit Files) :=
                    if MMAP_FILES = 0 then
                      copy_file_buffer w5.env source_sb.st_blksize fuel files
                    else
                      (copy_file_mmap w5.env source_sb.st_size fuel files).map
                        (fun o =>
                          match o with
                          | Outcome.returned _ s => Outcome.returned () s
                          | Outcome.exited st d s => Outcome.exited st d s
                          | Outcome.killed sig s => Outcome.killed sig s)
                  match copied with
                  | none => none
                  | some (Outcome.exited st d s) =>
                    some (Outcome.exited st d (w5.sync target_path s))
                  | some (Outcome.killed sig s) =>
                    some (Outcome.killed sig (w5.sync target_path s))
                  | some (Outcome.returned _ s) =>
                    match close (w5.sync target_path s) Fd.source_fd with
                    | (r6, w6) =>
                      if r6 = -1 then some (Outcome.exited EXIT_FAILURE "source close error" w6)
                      else
                        match close w6 Fd.target_fd with
                        | (r7, w7) =>
                          if r7 = -1 then
                            some (Outcome.exited EXIT_FAILURE "target close error" w7)
                          else some (Outcome.returned EXIT_SUCCESS w7)

/-! ## Specification-side definitions -/

/-- The join of a directory and a file name as the specification words it:
target and name when target already ends in a separator, otherwise target, a
separator and name. -/
def joined (target name : Path) : Path :=
  if target.getLast? = some '/' then target ++ name else target ++ ['/'] ++ name

/-- Every read succeeds and may transfer at least one byte. -/
def Env.reads_succeed (env : Env) : Prop :=
  ∀ off, ∃ k, 1 ≤ k ∧ env.read_limit off = some k

/-- The value every read returns fits the int it is stored in: no call
transfers more than INT_MAX bytes, because the buffer is no larger or because
the system transfers less in one call. -/
def Env.reads_fit_int (env : Env) (buffer_size : Nat) : Prop :=
  ∀ off k, env.read_limit off = some k → min k buffer_size ≤ INT_MAX

/-- Every write of at most buffer_size bytes succeeds and is complete. -/
def Env.writes_complete (env : Env) (buffer_size : Nat) : Prop :=
  ∀ off, ∃ k, buffer_size ≤ k ∧ env.write_limit off = some k

/-- Every system call of the memory-mapped strategy succeeds. -/
def Env.mmap_calls_succeed (env : Env) : Prop :=
  env.ftruncate_ok = true ∧ (∀ fd off, env.mmap_ok fd off = true) ∧
    ∀ fd off, env.munmap_ok fd off = true

/-- The descriptors as main hands them to the copy engine: the source at
offset 0, the target empty. -/
def Files.opened (source : Bytes) (log : List Syscall) : Files :=
  { source := source, source_off := 0, target := [], log := log }

/-- The ranges of the source mapped so far, as pairs of offset and length, in
the order of the calls. -/
def chunks (log : List Syscall) : List (Nat × Nat) :=
  log.filterMap fun e =>
    match e with
    | Syscall.mmap Fd.source_fd length offset => some (offset, length)
    | _ => none

/-- The byte strings handed to write so far, in the order of the calls. -/
def writes (log : List Syscall) : List Bytes :=
  log.filterMap fun e =>
    match e with
    | Syscall.write _ bytes => some bytes
    | _ => none

/-- The bytes handed to write so far, in order. -/
def written_bytes (log : List Syscall) : Bytes :=
  (writes log).foldr (fun bytes rest => bytes ++ rest) []

/-! ## Example systems -/

/-- An environment in which every call succeeds, reads transfer at most two
bytes at a time, writes are complete, pages are four bytes long, and the stack
can grow by 8 MiB. -/
def demo_env : Env :=
  { read_limit := fun _ => some 2, write_limit := fun _ => some 2147483647,
    ftruncate_ok := true, mmap_ok := fun _ _ => true, munmap_ok := fun _ _ => true,
    close_ok := fun _ => true, page_size := 4, stack_limit := 8388608 }

/-- The stat buffer of a regular file with mode 0644. -/
def demo_regular (ino size blksize : Nat) : Stat :=
  { st_mode := 0o100644, st_ino := ino, st_size := size, st_blksize := blksize }

/-- The stat buffer of a directory with mode 0755. -/
def demo_directory (ino : Nat) : Stat :=
  { st_mode := 0o040755, st_ino := ino, st_size := 4096, st_blksize := 4096 }

/-- The stat buffer of a character device. -/
def demo_device (ino : Nat) : Stat :=
  { st_mode := 0o020666, st_ino := ino, st_size := 0, st_blksize := 4096 }

/-- A system with the regular file a.txt of five bytes (and its hard link
b.txt), the directory /tmp (also named /tmp/), the device /dev/null, and the
unreadable directory /root; nothing else exists. -/
def demo_world : World :=
  { status := fun p =>
      if p = ['a', '.', 't', 'x', 't'] ∨ p = ['b', '.', 't', 'x', 't'] then
        StatResult.ok (demo_regular 5 5 4096)
      else if p = ['/', 't', 'm', 'p'] ∨ p = ['/', 't', 'm', 'p', '/'] then
        StatResult.ok (demo_directory 1)
      else if p = ['/', 'd', 'e', 'v', '/', 'n', 'u', 'l', 'l'] then
        StatResult.ok (demo_device 9)
      else if p = ['/', 'r', 'o', 'o', 't', '/', 'x'] then StatResult.error 13
      else StatResult.error ENOENT,
    open_ok := fun _ => true,
    data := fun p =>
      if p = ['a', '.', 't', 'x', 't'] ∨ p = ['b', '.', 't', 'x', 't'] then [104, 101, 108, 108, 111]
      else [],
    env := demo_env,
    log := [] }

/-- A system in which ab is a regular file and every other path names a
directory. -/
def root_world : World :=
  { status := fun p =>
      if p = ['a', 'b'] then StatResult.ok (demo_regular 5 5 4096)
      else StatResult.ok (demo_directory 2),
    open_ok := fun _ => true,
    data := fun p => if p = ['a', 'b'] then [104, 105] else [],
    env := demo_env,
    log := [] }

/-- The ranges the specification prescribes for a source of the given size:
for each k below the number of pages the size needs, the range from k * page
up to the smaller of (k + 1) * page and size, as a pair of offset and
length. -/
def chunk_ranges (page size : Nat) : List (Nat × Nat) :=
  (List.range ((size + page - 1) / page)).map fun k =>
    (k * page, min ((k + 1) * page) size - k * page)

/-- A system like demo_world in which the block size reported for a.txt is 0. -/
def zero_blksize_world : World :=
  { demo_world with
    status := fun p =>
      if p = ['a', '.', 't', 'x', 't'] then StatResult.ok (demo_regular 5 5 0)
      else StatResult.error ENOENT }

/-- A system like demo_world in which the block size reported for a.txt is
1 GiB, more than the 8 MiB the stack can grow by. -/
def large_blksize_world : World :=
  { demo_world with
    status := fun p =>
      if p = ['a', '.', 't', 'x', 't'] then StatResult.ok (demo_regular 5 5 1073741824)
      else StatResult.error ENOENT }

/-- A system like demo_world in which the read issued at offset 2 of the source
fails. -/
def read_error_world : World :=
  { demo_world with
    env := { demo_env with read_limit := fun off => if off = 2 then none else some 2 } }

/-! ## Lemmas on the C library -/

theorem strrchr_last (s : Path) (c : Char) (hne : s ≠ []) :
    strrchr s c = some (s.length - 1) ↔ s.getLast? = some c := by
  induction s with
  | nil => exact absurd rfl hne
  | cons x xs ih =>
    cases xs with
    | nil =>
      simp only [strrchr, List.length_singleton, List.getLast?_singleton]
      by_cases hx : x = c <;> simp [hx]
    | cons y ys =>
      have ih2 := ih (by simp)
      rw [List.getLast?_cons_cons, ← ih2]
      simp only [List.length_cons, Nat.add_sub_cancel] at ih2 ⊢
      rw [strrchr]
      cases h : strrchr (y :: ys) c with
      | none =>
        by_cases hx : x = c <;> simp [hx]
      | some i => simp

theorem int_of_size_t_small (x : Nat) (h : x ≤ INT_MAX) : int_of_size_t x = (x : Int) := by
  unfold INT_MAX at h
  unfold int_of_size_t
  have h1 : x % 2 ^ 32 = x := Nat.mod_eq_of_lt (by omega)
  rw [h1, if_pos (by omega)]

theorem S_ISREG_not_ISDIR (m : Nat) (h : S_ISREG m = true) : S_ISDIR m = false := by
  unfold S_ISREG at h
  unfold S_ISDIR
  have h1 : m &&& S_IFMT = S_IFREG := by simpa using h
  rw [h1]
  decide

theorem stat_eq (PATH_MAX : Nat) (w : World) (path : Path) :
    stat PATH_MAX w path =
      ((stat PATH_MAX w path).1, { w with log := w.log ++ [Syscall.stat path] }) := rfl

/-- In the directory case, whenever the joined length fits an int, determine_target
returns the first PATH_MAX characters of the join. -/
theorem determine_target_dir (PATH_MAX : Nat) (w : World) (source target : Path) (sb : Stat)
    (hne : target ≠ [])
    (hst : (stat PATH_MAX w target).1 = StatResult.ok sb)
    (hdir : S_ISDIR sb.st_mode = true)
    (hint : (joined target (basename source)).length ≤ INT_MAX) :
    (determine_target PATH_MAX w source target).1 =
      some ((joined target (basename source)).take PATH_MAX) := by
  have hlen : target.length ≠ 0 := by
    intro h
    exact hne (List.eq_nil_of_length_eq_zero h)
  unfold determine_target
  rw [stat_eq, hst]
  simp only [strlen, hlen, if_false, hdir, if_true]
  unfold joined at hint ⊢
  by_cases hl : target.getLast? = some '/'
  · have hs : strrchr target '/' = some (target.length - 1) := (strrchr_last target '/' hne).mpr hl
    simp only [hl, if_true] at hint
    simp only [hl, hs, if_true, snprintf, Nat.add_sub_cancel, hint]
    rw [int_of_size_t_small _ (by simpa using hint)]
    simp
  · have hs : ¬ strrchr target '/' = some (target.length - 1) :=
      fun h => hl ((strrchr_last target '/' hne).mp h)
    simp only [hl, if_false] at hint
    have hint2 : (target ++ '/' :: basename source).length ≤ INT_MAX := by simpa using hint
    simp only [hl, hs, if_false, snprintf, Nat.add_sub_cancel, hint2, if_true]
    have hint3 : target.length + 1 + (basename source).length ≤ INT_MAX := by
      simp only [List.length_append, List.length_cons] at hint2
      omega
    rw [int_of_size_t_small _ hint3]
    have e : ((target ++ '/' :: basename source).length : Int) =
        ((target.length + 1 + (basename source).length : Nat) : Int) := by
      simp only [List.length_append, List.length_cons]
      congr 1
      omega
    rw [e]
    simp

theorem determine_target_nil (PATH_MAX : Nat) (w : World) (source : Path) :
    determine_target PATH_MAX w source [] = (none, w) := rfl

theorem determine_target_snd (PATH_MAX : Nat) (w : World) (source target : Path)
    (hne : target ≠ []) :
    (determine_target PATH_MAX w source target).2 =
      { w with log := w.log ++ [Syscall.stat target] } := by
  have hlen : target.length ≠ 0 := by
    intro h
    exact hne (List.eq_nil_of_length_eq_zero h)
  unfold determine_target
  rw [stat_eq]
  simp only [strlen, hlen, if_false]
  cases (stat PATH_MAX w target).1 with
  | error errno => dsimp only; split <;> rfl
  | ok sb => dsimp only; split_ifs <;> rfl

theorem determine_target_fst_log (PATH_MAX : Nat) (w : World) (log : List Syscall)
    (source target : Path) :
    (determine_target PATH_MAX { w with log := log } source target).1 =
      (determine_target PATH_MAX w source target).1 := by
  unfold determine_target
  rw [stat_eq, stat_eq PATH_MAX w]
  have e : (stat PATH_MAX { w with log := log } target).1 = (stat PATH_MAX w target).1 := rfl
  rw [e]
  by_cases hlen : strlen target = 0
  · simp only [hlen, if_true]
  · simp only [hlen, if_false]
    cases (stat PATH_MAX w target).1 with
    | error errno => dsimp only; split <;> rfl
    | ok sb => dsimp only; split_ifs <;> rfl

/-! ## The claims on the path resolver -/

/-- C2: when the status query reports a non-empty target as a directory and
the join of target and the base name of the source is at most PATH_MAX
characters long, determine_target returns target followed by the base name if
target ends in a slash, and target, a slash and the base name otherwise; the
test the code makes with strrchr holds exactly when target ends in a slash.
PATH_MAX is a constant of type int, hence at most INT_MAX. -/
theorem determine_target_directory_join (PATH_MAX : Nat) (w : World) (source target : Path)
    (sb : Stat)
    (hpm : PATH_MAX ≤ INT_MAX)
    (hne : target ≠ [])
    (hst : (stat PATH_MAX w target).1 = StatResult.ok sb)
    (hdir : S_ISDIR sb.st_mode = true)
    (hfit : (joined target (basename source)).length ≤ PATH_MAX) :
    (determine_target PATH_MAX w source target).1 =
        some (if target.getLast? = some '/' then target ++ basename source
              else target ++ ['/'] ++ basename source) ∧
      (strrchr target '/' = some (strlen target - 1) ↔ target.getLast? = some '/') := by
  refine ⟨?_, strrchr_last target '/' hne⟩
  rw [determine_target_dir PATH_MAX w source target sb hne hst hdir (le_trans hfit hpm),
    List.take_of_length_le hfit]
  rfl

theorem determine_target_directory_join_witness :
    (determine_target 4096 demo_world ['d', '/', 'a', '.', 't', 'x', 't'] ['/', 't', 'm', 'p']).1 =
        some ['/', 't', 'm', 'p', '/', 'a', '.', 't', 'x', 't'] ∧
      (determine_target 4096 demo_world ['d', '/', 'a', '.', 't', 'x', 't']
          ['/', 't', 'm', 'p', '/']).1 =
        some ['/', 't', 'm', 'p', '/', 'a', '.', 't', 'x', 't'] :=
  ⟨(determine_target_directory_join 4096 demo_world ['d', '/', 'a', '.', 't', 'x', 't']
      ['/', 't', 'm', 'p'] (demo_directory 1) (by decide) (by decide) (by decide) (by decide)
      (by decide)).1,
   (determine_target_directory_join 4096 demo_world ['d', '/', 'a', '.', 't', 'x', 't']
      ['/', 't', 'm', 'p', '/'] (demo_directory 1) (by decide) (by decide) (by decide) (by decide)
      (by decide)).1⟩

/-- C5: for a non-empty target that the status query reports as missing
(ENOENT) or as a regular file, determine_target succeeds and returns target
itself, whatever the source; the copy fits the buffer of PATH_MAX + 1
characters, since the status query refuses longer paths with ENAMETOOLONG. -/
theorem determine_target_verbatim (PATH_MAX : Nat) (w : World) (source target : Path)
    (hne : target ≠ [])
    (hst : (stat PATH_MAX w target).1 = StatResult.error ENOENT ∨
      ∃ sb, (stat PATH_MAX w target).1 = StatResult.ok sb ∧ S_ISREG sb.st_mode = true) :
    (determine_target PATH_MAX w source target).1 = some target ∧
      strlen target + 1 ≤ PATH_MAX + 1 := by
  have hlen : target.length ≠ 0 := by
    intro h
    exact hne (List.eq_nil_of_length_eq_zero h)
  have hfit : strlen target + 1 ≤ PATH_MAX + 1 := by
    unfold strlen
    by_contra hcon
    have hlong : PATH_MAX ≤ target.length := by omega
    have hres : (stat PATH_MAX w target).1 = StatResult.error ENAMETOOLONG := by
      simp [stat, hlong]
    rw [hres] at hst
    rcases hst with h | ⟨sb, h, _⟩
    · exact absurd h (by decide)
    · exact absurd h (by simp)
  refine ⟨?_, hfit⟩
  unfold determine_target
  rw [stat_eq]
  rcases hst with h | ⟨sb, h, hreg⟩
  · rw [h]
    simp [strlen, hlen]
  · rw [h]
    simp [strlen, hlen, hreg, S_ISREG_not_ISDIR _ hreg]

theorem determine_target_verbatim_witness :
    (determine_target 4096 demo_world ['a', '.', 't', 'x', 't'] ['n', 'e', 'w']).1 =
        some ['n', 'e', 'w'] ∧
      (determine_target 4096 demo_world ['a', '.', 't', 'x', 't'] ['b', '.', 't', 'x', 't']).1 =
        some ['b', '.', 't', 'x', 't'] :=
  ⟨(determine_target_verbatim 4096 demo_world ['a', '.', 't', 'x', 't'] ['n', 'e', 'w']
      (by decide) (Or.inl (by decide))).1,
   (determine_target_verbatim 4096 demo_world ['a', '.', 't', 'x', 't'] ['b', '.', 't', 'x', 't']
      (by decide) (Or.inr ⟨demo_regular 5 5 4096, by decide, by decide⟩)).1⟩

/-- C9: for a non-empty target, determine_target returns the failure signal
when the status query succeeds with a file that is neither a directory nor a
regular file, and when it fails with an errno other than ENOENT; and whenever
determine_target succeeds, the target is missing (ENOENT), a regular file or
a directory. -/
theorem determine_target_unsupported (PATH_MAX : Nat) (w : World) (source target : Path)
    (hne : target ≠ []) :
    (((∃ sb, (stat PATH_MAX w target).1 = StatResult.ok sb ∧ S_ISDIR sb.st_mode = false ∧
            S_ISREG sb.st_mode = false) ∨
          ∃ errno, (stat PATH_MAX w target).1 = StatResult.error errno ∧ errno ≠ ENOENT) →
        (determine_target PATH_MAX w source target).1 = none) ∧
      ∀ p, (determine_target PATH_MAX w source target).1 = some p →
        (stat PATH_MAX w target).1 = StatResult.error ENOENT ∨
          ∃ sb, (stat PATH_MAX w target).1 = StatResult.ok sb ∧
            (S_ISREG sb.st_mode = true ∨ S_ISDIR sb.st_mode = true) := by
  have hlen : target.length ≠ 0 := by
    intro h
    exact hne (List.eq_nil_of_length_eq_zero h)
  constructor
  · intro h
    unfold determine_target
    rw [stat_eq]
    rcases h with ⟨sb, h, hd, hr⟩ | ⟨errno, h, he⟩
    · rw [h]
      simp [strlen, hlen, hd, hr]
    · rw [h]
      simp [strlen, hlen, he]
  · intro p hp
    unfold determine_target at hp
    rw [stat_eq] at hp
    simp only [strlen, hlen, if_false] at hp
    cases hres : (stat PATH_MAX w target).1 with
    | error errno =>
      rw [hres] at hp
      left
      by_cases he : errno = ENOENT
      · rw [he]
      · simp [he] at hp
    | ok sb =>
      rw [hres] at hp
      right
      refine ⟨sb, rfl, ?_⟩
      by_cases hd : S_ISDIR sb.st_mode = true
      · exact Or.inr hd
      · by_cases hr : S_ISREG sb.st_mode = true
        · exact Or.inl hr
        · simp [hd, hr] at hp

theorem determine_target_unsupported_witness :
    (determine_target 4096 demo_world ['a', '.', 't', 'x', 't']
        ['/', 'd', 'e', 'v', '/', 'n', 'u', 'l', 'l']).1 = none ∧
      (determine_target 4096 demo_world ['a', '.', 't', 'x', 't']
        ['/', 'r', 'o', 'o', 't', '/', 'x']).1 = none :=
  ⟨(determine_target_unsupported 4096 demo_world ['a', '.', 't', 'x', 't']
      ['/', 'd', 'e', 'v', '/', 'n', 'u', 'l', 'l'] (by decide)).1
      (Or.inl ⟨demo_device 9, by decide, by decide, by decide⟩),
   (determine_target_unsupported 4096 demo_world ['a', '.', 't', 'x', 't']
      ['/', 'r', 'o', 'o', 't', '/', 'x'] (by decide)).1
      (Or.inr ⟨13, by decide, by decide⟩)⟩

theorem slashes_truncated (n PATH_MAX : Nat) (h1 : 1 ≤ n) (h2 : PATH_MAX = n + 1)
    (h3 : n + 2 ≤ INT_MAX) :
    (joined (List.replicate n '/') (basename ['a', 'b'])).length = n + 2 ∧
      (determine_target PATH_MAX root_world ['a', 'b'] (List.replicate n '/')).1 =
        some (List.replicate n '/' ++ ['a']) ∧
      List.replicate n '/' ++ ['a'] ≠ joined (List.replicate n '/') (basename ['a', 'b']) := by
  subst h2
  have hlast : (List.replicate n '/').getLast? = some '/' := by
    rw [List.getLast?_eq_getElem?, List.getElem?_replicate]
    simp
    omega
  have hj : joined (List.replicate n '/') (basename ['a', 'b']) =
      List.replicate n '/' ++ ['a', 'b'] := by
    unfold joined
    rw [if_pos hlast]
    rfl
  have hne : List.replicate n '/' ≠ ([] : Path) := by
    intro h
    have := congrArg List.length h
    simp at this
    omega
  have hst : (stat (n + 1) root_world (List.replicate n '/')).1 =
      StatResult.ok (demo_directory 2) := by
    have h2 : List.replicate n '/' ≠ ['a', 'b'] := by
      intro h
      have h0 := hlast
      rw [h] at h0
      simp at h0
    simp [stat, root_world, h2]
  refine ⟨by rw [hj]; simp, ?_, ?_⟩
  · rw [determine_target_dir (n + 1) root_world ['a', 'b'] (List.replicate n '/')
      (demo_directory 2) hne hst (by decide) (by rw [hj]; simpa using h3), hj]
    have e : (List.replicate n '/' ++ ['a', 'b'] : Path) =
        (List.replicate n '/' ++ ['a']) ++ ['b'] := by simp
    rw [e, List.take_append_of_le_length (by simp), List.take_of_length_le (by simp)]
  · rw [hj]
    intro h
    have := congrArg List.length h
    simp at this

/-- C6 (the code departs from it): with PATH_MAX = 4096, the source ab and a
directory target of 4095 slashes, the join has 4097 characters, and
determine_target does not fail: n and n_expect are both 4097, and it returns
the first 4096 characters of the join, a truncated path. -/
theorem determine_target_returns_truncated_path :
    (joined (List.replicate 4095 '/') (basename ['a', 'b'])).length = 4097 ∧
      (determine_target 4096 root_world ['a', 'b'] (List.replicate 4095 '/')).1 =
        some (List.replicate 4095 '/' ++ ['a']) ∧
      List.replicate 4095 '/' ++ ['a'] ≠ joined (List.replicate 4095 '/') (basename ['a', 'b']) :=
  slashes_truncated 4095 4096 (by decide) (by decide) (by decide)

/-! ## The claims on the driver -/

/-- C8: determine_target called with an empty target returns the failure
signal and leaves the system as it was, the log included: no status query is
made.  When main is run with a source that passes its regular-file check and
an empty target, it ends with the failure status and the diagnostic "target
path is invalid"; the only system call made is the status query of the
source, so no file was opened, created or truncated. -/
theorem empty_target_rejected (MMAP_FILES PATH_MAX fuel : Nat) (w : World)
    (prog source : Path) (source_sb : Stat)
    (hs : (stat PATH_MAX w source).1 = StatResult.ok source_sb)
    (hreg : S_ISREG source_sb.st_mode = true) :
    determine_target PATH_MAX w source [] = (none, w) ∧
      main MMAP_FILES PATH_MAX fuel w [prog, source, []] =
        some (Outcome.exited EXIT_FAILURE "target path is invalid"
          { w with log := w.log ++ [Syscall.stat source] }) := by
  refine ⟨rfl, ?_⟩
  unfold main
  simp only [List.length_cons, List.length_nil, List.getD_cons_succ, List.getD_cons_zero]
  rw [stat_eq, hs]
  simp [hreg, determine_target_nil]

theorem empty_target_rejected_witness :
    determine_target 4096 demo_world ['a', '.', 't', 'x', 't'] [] = (none, demo_world) ∧
      main 0 4096 8 demo_world [['t', 'c', 'p'], ['a', '.', 't', 'x', 't'], []] =
        some (Outcome.exited EXIT_FAILURE "target path is invalid"
          { demo_world with log := demo_world.log ++ [Syscall.stat ['a', '.', 't', 'x', 't']] }) :=
  empty_target_rejected 0 4096 8 demo_world ['t', 'c', 'p'] ['a', '.', 't', 'x', 't']
    (demo_regular 5 5 4096) (by decide) (by decide)

/-- C3: when the source passes the regular-file check of main, the path
resolver returns a target path, the status query of that path succeeds and the
inode number it reports equals that of the source, main ends with the failure
status and the diagnostic "source and target are the same file".  The system
is as it was except for the log, which has grown by three status queries: no
file was opened, and the content of every file is unchanged. -/
theorem main_rejects_self_copy (MMAP_FILES PATH_MAX fuel : Nat) (w : World)
    (prog source target target_path : Path) (source_sb target_sb : Stat)
    (hs : (stat PATH_MAX w source).1 = StatResult.ok source_sb)
    (hreg : S_ISREG source_sb.st_mode = true)
    (hdt : (determine_target PATH_MAX w source target).1 = some target_path)
    (ht : (stat PATH_MAX w target_path).1 = StatResult.ok target_sb)
    (hino : target_sb.st_ino = source_sb.st_ino) :
    main MMAP_FILES PATH_MAX fuel w [prog, source, target] =
      some (Outcome.exited EXIT_FAILURE "source and target are the same file"
        { w with
          log := w.log ++
            [Syscall.stat source, Syscall.stat target, Syscall.stat target_path] }) := by
  have hne : target ≠ [] := by
    intro h
    rw [h, determine_target_nil] at hdt
    exact absurd hdt (by simp)
  have h2 : determine_target PATH_MAX { w with log := w.log ++ [Syscall.stat source] }
      source target =
      (some target_path,
        { w with log := w.log ++ [Syscall.stat source] ++ [Syscall.stat target] }) := by
    apply Prod.ext
    · rw [determine_target_fst_log, hdt]
    · rw [determine_target_snd _ _ _ _ hne]
  have h3 : stat PATH_MAX
      { w with log := w.log ++ [Syscall.stat source] ++ [Syscall.stat target] } target_path =
      (StatResult.ok target_sb,
        { w with
          log := w.log ++ [Syscall.stat source] ++ [Syscall.stat target] ++
            [Syscall.stat target_path] }) := by
    apply Prod.ext
    · exact ht
    · rfl
  unfold main
  simp only [List.length_cons, List.length_nil, List.getD_cons_succ, List.getD_cons_zero]
  rw [stat_eq, hs]
  simp only [hreg, h2, h3, hino]
  simp

theorem main_rejects_self_copy_witness :
    main 0 4096 8 demo_world
        [['t', 'c', 'p'], ['a', '.', 't', 'x', 't'], ['b', '.', 't', 'x', 't']] =
      some (Outcome.exited EXIT_FAILURE "source and target are the same file"
        { demo_world with
          log := demo_world.log ++
            [Syscall.stat ['a', '.', 't', 'x', 't'], Syscall.stat ['b', '.', 't', 'x', 't'],
              Syscall.stat ['b', '.', 't', 'x', 't']] }) :=
  main_rejects_self_copy 0 4096 8 demo_world ['t', 'c', 'p'] ['a', '.', 't', 'x', 't']
    ['b', '.', 't', 'x', 't'] ['b', '.', 't', 'x', 't'] (demo_regular 5 5 4096)
    (demo_regular 5 5 4096) (by decide) (by decide) (by decide) (by decide) (by decide)

/-! ## The buffered strategy -/

theorem writes_append (l1 l2 : List Syscall) : writes (l1 ++ l2) = writes l1 ++ writes l2 := by
  simp [writes, List.filterMap_append]

theorem written_bytes_append (l1 l2 : List Syscall) :
    written_bytes (l1 ++ l2) = written_bytes l1 ++ written_bytes l2 := by
  unfold written_bytes
  rw [writes_append]
  induction writes l1 with
  | nil => rfl
  | cons b bs ih => simp [List.foldr, ih]

theorem written_bytes_read (fd : Fd) (count : Nat) :
    written_bytes [Syscall.read fd count] = [] := rfl

theorem written_bytes_write (fd : Fd) (bytes : Bytes) :
    written_bytes [Syscall.write fd bytes] = bytes := by
  simp [written_bytes, writes]

theorem take_append_drop_length (l : Bytes) (n : Nat) :
    l.take n ++ l.drop (l.take n).length = l := by
  rw [List.length_take]
  rcases Nat.le_total n l.length with h | h
  · rw [Nat.min_eq_left h]
    exact List.take_append_drop n l
  · rw [Nat.min_eq_right h, List.take_of_length_le h, List.drop_length]
    simp

theorem read_split (l : Bytes) (off count : Nat) :
    (l.drop off).take count ++ l.drop (off + ((l.drop off).take count).length) = l.drop off := by
  have h := take_append_drop_length (l.drop off) count
  rw [List.drop_drop] at h
  rw [Nat.add_comm] at h
  first
    | exact h
    | (rw [Nat.add_comm]; exact h)

theorem int_of_ssize_t_length (l : Bytes) (h : l.length ≤ INT_MAX) :
    int_of_ssize_t (l.length : Int) = (l.length : Int) := by
  unfold INT_MAX at h
  unfold int_of_ssize_t
  omega

theorem copy_file_buffer_fits (env : Env) (buffer_size fuel : Nat) (s : Files)
    (h : buffer_size ≤ env.stack_limit) :
    copy_file_buffer env buffer_size fuel s = copy_file_buffer_loop env buffer_size fuel s := by
  simp [copy_file_buffer, alloca, h]

theorem copy_file_buffer_overflow (env : Env) (buffer_size fuel : Nat) (s : Files)
    (h : ¬ buffer_size ≤ env.stack_limit) :
    copy_file_buffer env buffer_size fuel s = some (Outcome.killed SIGSEGV s) := by
  simp [copy_file_buffer, alloca, h]

theorem int_of_ssize_t_neg_one : int_of_ssize_t (-1) = -1 := by decide

/-- With reads that succeed and return no more than INT_MAX bytes, and with
complete writes, the loop of copy_file_buffer returns, for any bound above the
number of unread bytes, after appending the unread part of the source to the
target. -/
theorem copy_file_buffer_loop_run (env : Env) (buffer_size : Nat) (hb : 1 ≤ buffer_size)
    (hint : env.reads_fit_int buffer_size)
    (hr : env.reads_succeed) (hw : env.writes_complete buffer_size) :
    ∀ (fuel : Nat) (s : Files), s.source.length - s.source_off < fuel →
      ∃ s', copy_file_buffer_loop env buffer_size fuel s = some (Outcome.returned () s') ∧
        s'.source = s.source ∧
        s'.target = s.target ++ s.source.drop s.source_off ∧
        written_bytes s'.log = written_bytes s.log ++ s.source.drop s.source_off := by
  intro fuel
  induction fuel with
  | zero => intro s h; omega
  | succ fuel ih =>
    intro s hfuel
    obtain ⟨k, hk1, hk⟩ := hr s.source_off
    have hc : 1 ≤ min k buffer_size := by omega
    have hcb : min k buffer_size ≤ buffer_size := by omega
    have hcm : min k buffer_size ≤ INT_MAX := hint s.source_off k hk
    generalize hcount : min k buffer_size = count at hc hcb hcm
    rw [copy_file_buffer_loop]
    simp only [read, hk, hcount]
    rw [int_of_ssize_t_length _ (le_trans (List.length_take_le _ _) hcm)]
    by_cases hnil : (s.source.drop s.source_off).take count = []
    · have hd : s.source.drop s.source_off = [] := by
        cases hl : s.source.drop s.source_off with
        | nil => rfl
        | cons x xs =>
          rw [hl] at hnil
          obtain ⟨c, rfl⟩ : ∃ c, count = c + 1 := ⟨count - 1, by omega⟩
          simp at hnil
      simp only [hnil, List.length_nil, Nat.cast_zero, gt_iff_lt, lt_self_iff_false,
        if_false]
      refine ⟨_, rfl, rfl, ?_, ?_⟩
      · simp [hd]
      · simp [hd, written_bytes_append, written_bytes_read]
    · have hpos : 0 < ((s.source.drop s.source_off).take count).length :=
        List.length_pos.mpr hnil
      have hlen : ((s.source.drop s.source_off).take count).length ≤ buffer_size :=
        le_trans (List.length_take_le _ _) hcb
      obtain ⟨k2, hk2, hwk⟩ := hw s.target.length
      have hsplit := read_split s.source s.source_off count
      generalize hbuf : (s.source.drop s.source_off).take count = buffer at hnil hpos hlen hsplit
      have hn : (0 : Int) < (buffer.length : Int) := by exact_mod_cast hpos
      simp only [gt_iff_lt, hn, if_true, Int.toNat_ofNat, List.take_length, write, hwk]
      have hacc : buffer.take k2 = buffer := List.take_of_length_le (le_trans hlen hk2)
      simp only [hacc, ne_eq, not_true_eq_false, if_false]
      have hoff : s.source_off < s.source.length := by
        by_contra hcon
        have : s.source.drop s.source_off = [] := List.drop_of_length_le (by omega)
        rw [this] at hbuf
        simp at hbuf
        exact hnil hbuf
      obtain ⟨s', hrun, hsrc, htgt, hwr⟩ := ih
        { source := s.source, source_off := s.source_off + buffer.length,
          target := s.target ++ buffer,
          log := s.log ++ [Syscall.read Fd.source_fd buffer_size] ++
            [Syscall.write Fd.target_fd buffer] }
        (by simp only; omega)
      refine ⟨s', hrun, hsrc, ?_, ?_⟩
      · rw [htgt]
        simp only [List.append_assoc]
        rw [hsplit]
      · rw [hwr]
        simp only [written_bytes_append, written_bytes_read, written_bytes_write,
          List.append_nil, List.nil_append, List.append_assoc, hsplit]

/-- C1 (amended): for every source content, every buffer_size of at least 1
that the stack has room for, and every environment in which each read
succeeds (it then returns between 1 and buffer_size of the next unread bytes,
and 0 only at the end of the file) with a value that fits the int n, and each
write is complete, copy_file_buffer, started on the freshly opened descriptors
with any bound above the length of the source, returns normally; the target
then holds exactly the bytes of the source, and the bytes handed to write, in
order, are exactly the bytes of the source. -/
theorem copy_file_buffer_copies_source (env : Env) (source : Bytes) (log : List Syscall)
    (buffer_size fuel : Nat)
    (hb : 1 ≤ buffer_size) (hstack : buffer_size ≤ env.stack_limit)
    (hint : env.reads_fit_int buffer_size)
    (hr : env.reads_succeed) (hw : env.writes_complete buffer_size)
    (hfuel : source.length < fuel) :
    ∃ s', copy_file_buffer env buffer_size fuel (Files.opened source log) =
        some (Outcome.returned () s') ∧
      s'.target = source ∧ written_bytes s'.log = written_bytes log ++ source := by
  obtain ⟨s', hrun, _, htgt, hwr⟩ :=
    copy_file_buffer_loop_run env buffer_size hb hint hr hw fuel (Files.opened source log)
      (by simpa [Files.opened] using hfuel)
  rw [copy_file_buffer_fits env buffer_size fuel _ hstack]
  exact ⟨s', hrun, by simpa [Files.opened] using htgt, by simpa [Files.opened] using hwr⟩

theorem copy_file_buffer_copies_source_witness :
    ∃ s', copy_file_buffer demo_env 3 6 (Files.opened [10, 20, 30, 40, 50] []) =
        some (Outcome.returned () s') ∧
      s'.target = [10, 20, 30, 40, 50] ∧
      written_bytes s'.log = written_bytes [] ++ [10, 20, 30, 40, 50] :=
  copy_file_buffer_copies_source demo_env [10, 20, 30, 40, 50] [] 3 6 (by decide) (by decide)
    (fun _ k h => by
      have hk : k = 2 := by
        have h2 : some 2 = some k := h
        exact (Option.some.inj h2).symm
      rw [hk]
      decide)
    (fun _ => ⟨2, by decide, rfl⟩) (fun _ => ⟨2147483647, by decide, rfl⟩) (by decide)

/-- C1 as stated fails: with a buffer_size of 1 GiB, in an environment whose
stack can grow by 8 MiB, whose reads all succeed and whose writes are all
complete, copy_file_buffer does not return; the process is killed by SIGSEGV
before any system call, whatever the bound, and the target stays empty.  In
the system large_blksize_world, where that block size is reported for the
five-byte source, main ends the same way after truncating the target. -/
theorem copy_file_buffer_large_block_size_killed :
    1 ≤ 1073741824 ∧ demo_env.reads_succeed ∧ demo_env.writes_complete 1073741824 ∧
      (∀ fuel, copy_file_buffer demo_env 1073741824 fuel (Files.opened [10, 20, 30] []) =
        some (Outcome.killed SIGSEGV (Files.opened [10, 20, 30] []))) ∧
      (∀ fuel, ¬ ∃ s', copy_file_buffer demo_env 1073741824 fuel (Files.opened [10, 20, 30] []) =
        some (Outcome.returned () s')) ∧
      ∀ fuel, ∃ w', main 0 4096 fuel large_blksize_world
            [['t', 'c', 'p'], ['a', '.', 't', 'x', 't'], ['n', 'e', 'w']] =
          some (Outcome.killed SIGSEGV w') ∧
        w'.data ['a', '.', 't', 'x', 't'] = [104, 101, 108, 108, 111] ∧
        w'.data ['n', 'e', 'w'] = [] := by
  have hk : ∀ fuel, copy_file_buffer demo_env 1073741824 fuel (Files.opened [10, 20, 30] []) =
      some (Outcome.killed SIGSEGV (Files.opened [10, 20, 30] [])) := fun fuel =>
    copy_file_buffer_overflow demo_env 1073741824 fuel _ (by decide)
  refine ⟨by decide, fun _ => ⟨2, by decide, rfl⟩, fun _ => ⟨2147483647, by decide, rfl⟩, hk,
    ?_, ?_⟩
  · rintro fuel ⟨s', h⟩
    rw [hk fuel] at h
    exact absurd h (by simp)
  · intro fuel
    exact ⟨_, rfl, rfl, rfl⟩

/-- Why the value of read has to fit an int: when a read of 2^32 bytes
succeeds in full, n is 0 and the loop ends as at the end of the file, with
nothing written. -/
theorem copy_file_buffer_loop_int_wraps (env : Env) (fuel : Nat) (s : Files)
    (h : env.read_limit s.source_off = some 4294967296)
    (hs : s.source_off + 4294967296 ≤ s.source.length) :
    copy_file_buffer_loop env 4294967296 (fuel + 1) s =
      some (Outcome.returned ()
        { s with
          source_off := s.source_off + 4294967296,
          log := s.log ++ [Syscall.read Fd.source_fd 4294967296] }) := by
  have hl : ((s.source.drop s.source_off).take 4294967296).length = 4294967296 := by
    simp only [List.length_take, List.length_drop]
    omega
  have h0 : int_of_ssize_t ((4294967296 : Nat) : Int) = 0 := by decide
  rw [copy_file_buffer_loop]
  simp only [read, h, Nat.min_self, hl, h0]
  simp

theorem copy_file_buffer_loop_read_error (env : Env) (buffer_size fuel : Nat) (s : Files)
    (h : env.read_limit s.source_off = none) :
    copy_file_buffer_loop env buffer_size (fuel + 1) s =
      some (Outcome.returned ()
        { s with log := s.log ++ [Syscall.read Fd.source_fd buffer_size] }) := by
  rw [copy_file_buffer_loop]
  simp [read, h, int_of_ssize_t_neg_one]

theorem copy_file_buffer_read_error (env : Env) (buffer_size fuel : Nat) (s : Files)
    (h : env.read_limit s.source_off = none) :
    copy_file_buffer env buffer_size (fuel + 1) s =
      if buffer_size ≤ env.stack_limit then
        some (Outcome.returned ()
          { s with log := s.log ++ [Syscall.read Fd.source_fd buffer_size] })
      else some (Outcome.killed SIGSEGV s) := by
  by_cases hst : buffer_size ≤ env.stack_limit
  · rw [copy_file_buffer_fits _ _ _ _ hst, if_pos hst,
      copy_file_buffer_loop_read_error env buffer_size fuel s h]
  · rw [copy_file_buffer_overflow _ _ _ _ hst, if_neg hst]

theorem copy_file_buffer_zero (env : Env) (fuel : Nat) (s : Files) :
    copy_file_buffer env 0 (fuel + 1) s =
      some (Outcome.returned () { s with log := s.log ++ [Syscall.read Fd.source_fd 0] }) := by
  rw [copy_file_buffer_fits env 0 (fuel + 1) s (Nat.zero_le _)]
  cases h : env.read_limit s.source_off with
  | none => exact copy_file_buffer_loop_read_error env 0 fuel s h
  | some k =>
    rw [copy_file_buffer_loop]
    have h0 : int_of_ssize_t 0 = 0 := by decide
    simp [read, h, h0]

/-- C10: with buffer_size = 0, copy_file_buffer issues one read of 0 bytes and
returns normally without any write, whatever the source holds and whatever
the environment answers; a successful read of 0 bytes returns 0.  In the
system zero_blksize_world, whose source a.txt holds five bytes, main exits
with status 0 and leaves the target empty, different from the source. -/
theorem zero_block_size_copies_nothing :
    (∀ (env : Env) (fuel : Nat) (s : Files),
        copy_file_buffer env 0 (fuel + 1) s =
          some (Outcome.returned ()
            { s with log := s.log ++ [Syscall.read Fd.source_fd 0] })) ∧
      (∀ (env : Env) (s : Files) (k : Nat), env.read_limit s.source_off = some k →
        (read env s 0).1 = 0) ∧
      ∃ w', main 0 4096 1 zero_blksize_world
            [['t', 'c', 'p'], ['a', '.', 't', 'x', 't'], ['n', 'e', 'w']] =
          some (Outcome.returned EXIT_SUCCESS w') ∧
        zero_blksize_world.data ['a', '.', 't', 'x', 't'] = [104, 101, 108, 108, 111] ∧
        w'.data ['a', '.', 't', 'x', 't'] = [104, 101, 108, 108, 111] ∧
        w'.data ['n', 'e', 'w'] = [] ∧ written_bytes w'.log = [] ∧
        w'.data ['n', 'e', 'w'] ≠ w'.data ['a', '.', 't', 'x', 't'] := by
  refine ⟨copy_file_buffer_zero, ?_, ?_⟩
  · intro env s k h
    simp [read, h]
  · exact ⟨_, rfl, rfl, rfl, rfl, rfl, by decide⟩

/-- C7 (the code departs from it): when a read fails, copy_file_buffer leaves
its loop and returns normally, as at the end of the file (unless the stack had
no room for the buffer, in which case the process was killed before the
read).  In the system read_error_world the read at offset 2 fails: main exits
with status 0 and the target holds the first two of the five bytes of the
source. -/
theorem read_error_is_not_fatal :
    (∀ (env : Env) (buffer_size fuel : Nat) (s : Files), env.read_limit s.source_off = none →
        copy_file_buffer env buffer_size (fuel + 1) s =
          if buffer_size ≤ env.stack_limit then
            some (Outcome.returned ()
              { s with log := s.log ++ [Syscall.read Fd.source_fd buffer_size] })
          else some (Outcome.killed SIGSEGV s)) ∧
      ∃ w', main 0 4096 8 read_error_world
            [['t', 'c', 'p'], ['a', '.', 't', 'x', 't'], ['n', 'e', 'w']] =
          some (Outcome.returned EXIT_SUCCESS w') ∧
        w'.data ['a', '.', 't', 'x', 't'] = [104, 101, 108, 108, 111] ∧
        w'.data ['n', 'e', 'w'] = [104, 101] :=
  ⟨copy_file_buffer_read_error, _, rfl, rfl, rfl⟩

/-! ## The memory-mapped strategy -/

theorem mapped_eq (l : Bytes) (off len : Nat) (h : off + len ≤ l.length) :
    (List.range len).map (fun i => l.getD (off + i) 0) = (l.drop off).take len := by
  apply List.ext_getElem
  · simp only [List.length_map, List.length_range, List.length_take, List.length_drop]
    omega
  · intro i h1 h2
    simp only [List.length_map, List.length_range] at h1
    simp only [List.getElem_map, List.getElem_range, List.getElem_take, List.getElem_drop]
    rw [List.getD_eq_getElem?_getD, List.getElem?_eq_getElem (by omega)]
    rfl

theorem pages_lt_iff (j page size : Nat) (hp : 1 ≤ page) :
    j < (size + page - 1) / page ↔ j * page < size := by
  rw [Nat.lt_iff_add_one_le, Nat.le_div_iff_mul_le (by omega), Nat.add_mul]
  omega

theorem chunks_append (l1 l2 : List Syscall) : chunks (l1 ++ l2) = chunks l1 ++ chunks l2 := by
  simp [chunks, List.filterMap_append]

/-- One iteration of the loop of copy_file_mmap when every call succeeds. -/
theorem copy_file_mmap_loop_step (env : Env) (size fuel written : Nat) (s : Files)
    (hok : env.mmap_calls_succeed) (hlt : written < size)
    (hal : written % env.page_size = 0) (hp : 1 ≤ env.page_size)
    (hsrc : s.source.length = size) (htl : s.target.length = size) :
    copy_file_mmap_loop env size env.page_size (fuel + 1) written s =
      copy_file_mmap_loop env size env.page_size fuel
        (written + min env.page_size (size - written))
        { s with
          target := s.target.take written ++
            (s.source.drop written).take (min env.page_size (size - written)) ++
            s.target.drop (written + min env.page_size (size - written)),
          log := s.log ++
            [Syscall.mmap Fd.source_fd (min env.page_size (size - written)) written,
             Syscall.mmap Fd.target_fd (min env.page_size (size - written)) written,
             Syscall.munmap Fd.source_fd (min env.page_size (size - written)),
             Syscall.munmap Fd.target_fd (min env.page_size (size - written))] } := by
  obtain ⟨_, hmap, hunmap⟩ := hok
  have hto : (if env.page_size < size - written then env.page_size else size - written) =
      min env.page_size (size - written) := by
    split <;> omega
  generalize hlen : min env.page_size (size - written) = len at hto
  have hlen1 : 1 ≤ len := by omega
  have hlen2 : written + len ≤ size := by omega
  rw [copy_file_mmap_loop]
  simp only [hlt, if_true, hto]
  have hne : len ≠ 0 := by omega
  simp only [mmap, hne, hal, hmap, false_or, ne_eq, not_true_eq_false, Bool.true_eq_false,
    if_false, Files.content, munmap, hunmap, if_true, memcpy]
  rw [mapped_eq s.source written len (by omega)]
  have hl : ((s.source.drop written).take len).length = len := by
    simp only [List.length_take, List.length_drop]
    omega
  have htake : ((s.source.drop written).take len).take len = (s.source.drop written).take len :=
    List.take_of_length_le (by omega)
  simp only [htake, hl]
  have hfull : (s.target.take written ++ (s.source.drop written).take len ++
      s.target.drop (written + len)).take s.target.length =
      s.target.take written ++ (s.source.drop written).take len ++
        s.target.drop (written + len) := by
    apply List.take_of_length_le
    simp only [List.length_append, List.length_take, List.length_drop, hl]
    omega
  rw [List.append_assoc] at hfull
  simp [hfull]

theorem chunks_step (len written : Nat) :
    chunks
      [Syscall.mmap Fd.source_fd len written, Syscall.mmap Fd.target_fd len written,
        Syscall.munmap Fd.source_fd len, Syscall.munmap Fd.target_fd len] =
      [(written, len)] := rfl

/-- When every call succeeds, the loop of copy_file_mmap, entered at the start of
page j with the target already equal to the source below that offset, returns
with written equal to the size, the target equal to the source, and the
remaining pages mapped one after the other. -/
theorem copy_file_mmap_loop_run (env : Env) (size : Nat) (hok : env.mmap_calls_succeed)
    (hp : 1 ≤ env.page_size) :
    ∀ (fuel j : Nat) (s : Files), s.source.length = size → s.target.length = size →
      s.target.take (min (j * env.page_size) size) =
        s.source.take (min (j * env.page_size) size) →
      size - min (j * env.page_size) size < fuel →
      ∃ s', copy_file_mmap_loop env size env.page_size fuel (min (j * env.page_size) size) s =
          some (Outcome.returned size s') ∧
        s'.source = s.source ∧ s'.target = s.source ∧
        chunks s'.log = chunks s.log ++
          (List.range' j ((size + env.page_size - 1) / env.page_size - j)).map
            (fun k => (k * env.page_size, min ((k + 1) * env.page_size) size - k * env.page_size)) := by
  intro fuel
  induction fuel with
  | zero => intro j s _ _ _ h; omega
  | succ fuel ih =>
    intro j s hsrc htl hinv hfuel
    by_cases hlt : j * env.page_size < size
    · have hmin : min (j * env.page_size) size = j * env.page_size := by omega
      rw [hmin] at hinv hfuel ⊢
      rw [copy_file_mmap_loop_step env size fuel (j * env.page_size) s hok hlt
        (Nat.mul_mod_left _ _) hp hsrc htl]
      have hnext : j * env.page_size + min env.page_size (size - j * env.page_size) =
          min ((j + 1) * env.page_size) size := by
        rw [Nat.add_mul]
        omega
      generalize hlen : min env.page_size (size - j * env.page_size) = len at hnext
      have hlen1 : 1 ≤ len := by omega
      have hlen2 : j * env.page_size + len ≤ size := by omega
      have hl : ((s.source.drop (j * env.page_size)).take len).length = len := by
        simp only [List.length_take, List.length_drop]
        omega
      have hpre : (s.target.take (j * env.page_size) ++
          (s.source.drop (j * env.page_size)).take len).length = j * env.page_size + len := by
        simp only [List.length_append, List.length_take, hl]
        omega
      have hf : min ((j + 1) * env.page_size) size - j * env.page_size = len := by
        rw [← hnext]
        omega
      obtain ⟨s', hrun, hs1, hs2, hs3⟩ := ih (j + 1)
        { s with
          target := s.target.take (j * env.page_size) ++
            (s.source.drop (j * env.page_size)).take len ++
            s.target.drop (j * env.page_size + len),
          log := s.log ++
            [Syscall.mmap Fd.source_fd len (j * env.page_size),
             Syscall.mmap Fd.target_fd len (j * env.page_size),
             Syscall.munmap Fd.source_fd len, Syscall.munmap Fd.target_fd len] }
        hsrc
        (by
          simp only [List.length_append, hpre, List.length_drop]
          omega)
        (by
          rw [← hnext]
          simp only
          rw [List.take_left' hpre, hinv, List.take_add])
        (by omega)
      rw [← hnext] at hrun
      refine ⟨s', hrun, hs1, hs2, ?_⟩
      rw [hs3]
      simp only [chunks_append, chunks_step, List.append_assoc]
      congr 1
      have hj : j < (size + env.page_size - 1) / env.page_size :=
        (pages_lt_iff j env.page_size size hp).mpr hlt
      obtain ⟨r, hr⟩ : ∃ r, (size + env.page_size - 1) / env.page_size - j = r + 1 :=
        ⟨(size + env.page_size - 1) / env.page_size - j - 1, by omega⟩
      have hr2 : (size + env.page_size - 1) / env.page_size - (j + 1) = r := by omega
      rw [hr, hr2, List.range'_succ, List.map_cons, List.singleton_append, hf]
    · have hmin : min (j * env.page_size) size = size := by omega
      rw [hmin] at hinv ⊢
      rw [copy_file_mmap_loop]
      simp only [lt_self_iff_false, if_false]
      refine ⟨s, rfl, rfl, ?_, ?_⟩
      · have h1 : s.target.take size = s.target := List.take_of_length_le (le_of_eq htl)
        have h2 : s.source.take size = s.source := List.take_of_length_le (le_of_eq hsrc)
        rw [h1, h2] at hinv
        exact hinv
      · have hj : ¬ j < (size + env.page_size - 1) / env.page_size := fun h =>
          hlt ((pages_lt_iff j env.page_size size hp).mp h)
        have hz : (size + env.page_size - 1) / env.page_size - j = 0 := by omega
        rw [hz]
        simp

theorem mem_chunk_ranges (page size : Nat) (c : Nat × Nat) :
    c ∈ chunk_ranges page size ↔
      ∃ k, k < (size + page - 1) / page ∧
        c = (k * page, min ((k + 1) * page) size - k * page) := by
  unfold chunk_ranges
  simp only [List.mem_map, List.mem_range]
  constructor
  · rintro ⟨k, hk, rfl⟩
    exact ⟨k, hk, rfl⟩
  · rintro ⟨k, hk, rfl⟩
    exact ⟨k, hk, rfl⟩

theorem chunk_ranges_bounds (page size : Nat) (hp : 1 ≤ page) :
    ∀ c ∈ chunk_ranges page size, 1 ≤ c.2 ∧ c.2 ≤ page := by
  intro c hc
  obtain ⟨k, hk, rfl⟩ := (mem_chunk_ranges page size c).mp hc
  have h := (pages_lt_iff k page size hp).mp hk
  simp only
  rw [Nat.add_mul]
  omega

theorem chunk_ranges_cover (page size : Nat) (hp : 1 ≤ page) :
    ∀ i, i < size → ∃! c, c ∈ chunk_ranges page size ∧ c.1 ≤ i ∧ i < c.1 + c.2 := by
  intro i hi
  have hpos : 0 < page := by omega
  have hlow : i / page * page ≤ i := Nat.div_mul_le_self i page
  have hhigh : i < (i / page + 1) * page := by
    have := Nat.lt_succ_self (i / page)
    exact (Nat.div_lt_iff_lt_mul hpos).mp this
  refine ⟨(i / page * page, min ((i / page + 1) * page) size - i / page * page), ⟨?_, ?_, ?_⟩, ?_⟩
  · exact (mem_chunk_ranges page size _).mpr
      ⟨i / page, (pages_lt_iff _ page size hp).mpr (by omega), rfl⟩
  · exact hlow
  · simp only
    omega
  · rintro c ⟨hc, h1, h2⟩
    obtain ⟨k, hk, rfl⟩ := (mem_chunk_ranges page size c).mp hc
    simp only at h1 h2
    have hk1 : k ≤ i / page := (Nat.le_div_iff_mul_le hpos).mpr h1
    have hk2 : i / page < k + 1 := (Nat.div_lt_iff_lt_mul hpos).mpr (by omega)
    have hkeq : k = i / page := by omega
    rw [hkeq]

/-- C4: for every source content, every page size of at least 1 and every
environment in which each system call of the strategy succeeds, copy_file_mmap,
started with any content of the target and any bound above the size of the
source, returns with written equal to the size; the target then has the size
and the content of the source; the ranges of the source it mapped are, in
order, the ranges from k * page up to the smaller of (k + 1) * page and the
size, each of them non-empty and at most one page long, and every offset below
the size lies in exactly one of them; for an empty source the only system call
is the resize, so that nothing is mapped, and the target is empty; and the
target equals the one copy_file_buffer produces under the conditions under
which it copies the source (a buffer the stack has room for, reads that
succeed with a value that fits an int, complete writes). -/
theorem copy_file_mmap_copies_source (env : Env) (source target : Bytes) (log : List Syscall)
    (fuel : Nat)
    (hp : 1 ≤ env.page_size) (hok : env.mmap_calls_succeed) (hfuel : source.length < fuel) :
    ∃ s', copy_file_mmap env source.length fuel
          { source := source, source_off := 0, target := target, log := log } =
        some (Outcome.returned source.length s') ∧
      s'.target = source ∧ s'.target.length = source.length ∧
      chunks s'.log = chunks log ++ chunk_ranges env.page_size source.length ∧
      (∀ c ∈ chunk_ranges env.page_size source.length, 1 ≤ c.2 ∧ c.2 ≤ env.page_size) ∧
      (∀ i, i < source.length →
        ∃! c, c ∈ chunk_ranges env.page_size source.length ∧ c.1 ≤ i ∧ i < c.1 + c.2) ∧
      (source = [] → s'.log = log ++ [Syscall.ftruncate Fd.target_fd 0] ∧ s'.target = []) ∧
      ∀ (env2 : Env) (buffer_size fuel2 : Nat) (log2 : List Syscall), 1 ≤ buffer_size →
        buffer_size ≤ env2.stack_limit → env2.reads_fit_int buffer_size →
        env2.reads_succeed → env2.writes_complete buffer_size → source.length < fuel2 →
        ∃ t, copy_file_buffer env2 buffer_size fuel2 (Files.opened source log2) =
            some (Outcome.returned () t) ∧ t.target = s'.target := by
  have hft : env.ftruncate_ok = true := hok.1
  have hresize : ((target ++ List.replicate (source.length - target.length) 0).take
      source.length).length = source.length := by
    simp only [List.length_take, List.length_append, List.length_replicate]
    omega
  obtain ⟨s', hrun, _, htgt, hch⟩ := copy_file_mmap_loop_run env source.length hok hp fuel 0
    { source := source, source_off := 0,
      target := (target ++ List.replicate (source.length - target.length) 0).take source.length,
      log := log ++ [Syscall.ftruncate Fd.target_fd source.length] }
    rfl hresize (by simp) (by simpa using hfuel)
  simp only [Nat.zero_mul, Nat.zero_min, Nat.sub_zero] at hrun hch
  have hcm : copy_file_mmap env source.length fuel
      { source := source, source_off := 0, target := target, log := log } =
      some (Outcome.returned source.length s') := by
    unfold copy_file_mmap
    simp only [ftruncate, hft, if_true]
    rw [if_neg (by decide)]
    exact hrun
  refine ⟨s', hcm, htgt, by rw [htgt], ?_, chunk_ranges_bounds _ _ hp,
    chunk_ranges_cover _ _ hp, ?_, ?_⟩
  · rw [hch, chunks_append]
    simp only [chunks, List.filterMap_cons, List.filterMap_nil, List.append_nil]
    rw [← List.range_eq_range']
    rfl
  · intro hnil
    subst hnil
    obtain ⟨f, rfl⟩ : ∃ f, fuel = f + 1 := ⟨fuel - 1, by simp at hfuel; omega⟩
    rw [copy_file_mmap_loop] at hrun
    simp only [List.length_nil, lt_self_iff_false, if_false, Option.some.injEq,
      Outcome.returned.injEq, true_and] at hrun
    rw [← hrun]
    exact ⟨rfl, by simp⟩
  · intro env2 buffer_size fuel2 log2 hb hstack hint hr hw hf2
    obtain ⟨t, ht, _, htt, _⟩ :=
      copy_file_buffer_loop_run env2 buffer_size hb hint hr hw fuel2 (Files.opened source log2)
        (by simpa [Files.opened] using hf2)
    rw [copy_file_buffer_fits env2 buffer_size fuel2 _ hstack]
    exact ⟨t, ht, by rw [htt, htgt]; simp [Files.opened]⟩

theorem copy_file_mmap_copies_source_witness :
    ∃ s', copy_file_mmap demo_env [10, 20, 30, 40, 50].length 6
          { source := [10, 20, 30, 40, 50], source_off := 0, target := [], log := [] } =
        some (Outcome.returned [10, 20, 30, 40, 50].length s') ∧
      s'.target = [10, 20, 30, 40, 50] ∧ chunks s'.log = [(0, 4), (4, 1)] := by
  obtain ⟨s', h1, h2, _, h3, _⟩ :=
    copy_file_mmap_copies_source demo_env [10, 20, 30, 40, 50] [] [] 6 (by decide)
      ⟨rfl, fun _ _ => rfl, fun _ _ => rfl⟩ (by decide)
  exact ⟨s', h1, h2, by rw [h3]; decide⟩

end Tcp
